import Mathlib

/-!
Verification of the SonoFlow backend against its specification.

Part 1 embeds the per-connection streaming session engine of the server
entry point (the socket connection handlers): the per-socket
variable `recognizeStream`, the `start-streaming`, `audio-chunk`,
`stop-streaming` and `disconnect` socket handlers, and the `error`
callback attached to the recognition stream.  The engine is modelled as a
step function from session state and incoming event to a new state plus a
list of observable outputs (socket emits, recognition channel operations,
console logs).  Channels opened with the recognition backend are tracked
explicitly so that the one-open-channel invariant can be stated.

Part 2 embeds the medical transcription enhancement service
(`extractMeasurements`, `classifySection`, `standardizeTerms`,
`detectFindings` and their constant tables).  Text is modelled as
`List Char`; JavaScript regular-expression matching is embedded as
explicit scanning functions, faithful to case-insensitive literal
alternation, greedy character classes, word boundaries over the ASCII
word-character set, and leftmost-match semantics.
-/

namespace Sono

/-- Bytes of an audio chunk. -/
abbrev Chunk := List Nat

/-- Events arriving at one connected socket, in the order the transport
delivers them.  `backendError` is the `error` event fired by the
recognition stream callback. -/
inductive Event where
  | startStreaming (language : Option String) (sampleRate : Option Nat)
  | audioChunk (chunk : Chunk)
  | stopStreaming
  | disconnect
  | backendError (msg : String)
  deriving DecidableEq, Repr

/-- Which Google credential environment variables are set when a handler
runs (`process.env` is consulted at event time). -/
structure Env where
  googleApplicationCredentials : Bool
  googleCloudApiKey : Bool
  deriving DecidableEq, Repr

/-- The credential check of the `start-streaming` handler:
`!process.env.GOOGLE_APPLICATION_CREDENTIALS && !process.env.GOOGLE_CLOUD_API_KEY`
fails the request; configured means at least one variable is set. -/
def Env.credentialsConfigured (e : Env) : Bool :=
  e.googleApplicationCredentials || e.googleCloudApiKey

/-- Observable effects of one handler invocation: `socket.emit`,
operations on a recognition backend channel (identified by the order in
which channels were opened), and console logging. -/
inductive Output where
  | emit (event : String) (payload : String)
  | channelOpen (id : Nat) (model : String) (languageCode : String) (sampleRateHertz : Nat)
  | channelWrite (id : Nat) (chunk : Chunk)
  | channelEnd (id : Nat)
  | log (msg : String)
  deriving DecidableEq, Repr

/-- Per-socket session state: the `recognizeStream` variable (holding the
id of the tracked channel, or none when null), the ids of channels that
have been opened with the backend and not yet ended, and a counter for
fresh channel ids. -/
structure SessionState where
  recognizeStream : Option Nat
  openChannels : List Nat
  nextId : Nat
  deriving DecidableEq, Repr

/-- State of a freshly connected socket: `let recognizeStream = null`. -/
def initialState : SessionState :=
  { recognizeStream := none, openChannels := [], nextId := 0 }

/-- Error message emitted when no Google credentials are configured. -/
def credentialsErrorMsg : String :=
  "Google Cloud credentials not configured. Please set GOOGLE_APPLICATION_CREDENTIALS or GOOGLE_CLOUD_API_KEY"

/-- The language code after JavaScript defaulting: an absent tag falls
back to `en-US`, and so does the empty string, which is falsy. -/
def languageCodeOf (language : Option String) : String :=
  match language with
  | some l => if l.isEmpty then "en-US" else l
  | none => "en-US"

/-- JavaScript `String.prototype.startsWith`, as used on the language code. -/
def jsStartsWith (s pre : String) : Bool :=
  pre.data.isPrefixOf s.data

/-- The medical-model test: does the language code start with `en-`? -/
def useMedicalModel (languageCode : String) : Bool :=
  jsStartsWith languageCode "en-"

/-- The model field of the recognition config: `medical_dictation` when
the medical model is selected, `command_and_search` otherwise. -/
def modelFor (languageCode : String) : String :=
  if useMedicalModel languageCode then "medical_dictation" else "command_and_search"

/-- The sample rate after JavaScript defaulting: absent and zero (falsy)
both become 16000. -/
def sampleRateOf (sampleRate : Option Nat) : Nat :=
  match sampleRate with
  | some n => if n = 0 then 16000 else n
  | none => 16000

/-- One handler invocation of the session engine.  Faithful to the
socket handlers of the server entry point:
- `start-streaming`: with no credentials, emit `streaming-error` and
  return, leaving the session untouched; otherwise open a new recognition
  stream (the previous value of `recognizeStream` is overwritten without
  being ended) and emit `streaming-started`.
- `audio-chunk`: `if (recognizeStream) recognizeStream.write(chunk)`;
  with no tracked stream the handler does nothing at all.
- `stop-streaming`: `if (recognizeStream)` end it, null the variable and
  emit `streaming-stopped`; otherwise do nothing.
- `disconnect`: end and null the tracked stream if present; the
  `Client disconnected` log is unconditional.
- stream `error` callback: log and emit `streaming-error` with the
  message of the backend error; the stream is neither ended nor nulled. -/
def step (env : Env) (s : SessionState) (e : Event) : SessionState × List Output :=
  match e with
  | .startStreaming language sampleRate =>
      if !env.credentialsConfigured then
        (s, [.emit "streaming-error" credentialsErrorMsg])
      else
        let languageCode := languageCodeOf language
        let id := s.nextId
        ({ recognizeStream := some id,
           openChannels := s.openChannels ++ [id],
           nextId := s.nextId + 1 },
         [.channelOpen id (modelFor languageCode) languageCode (sampleRateOf sampleRate),
          .emit "streaming-started" "Streaming started successfully",
          .log "Voice streaming started for socket"])
  | .audioChunk chunk =>
      match s.recognizeStream with
      | some id => (s, [.channelWrite id chunk])
      | none => (s, [])
  | .stopStreaming =>
      match s.recognizeStream with
      | some id =>
          ({ s with recognizeStream := none, openChannels := s.openChannels.erase id },
           [.channelEnd id,
            .emit "streaming-stopped" "Streaming stopped",
            .log "Voice streaming stopped for socket"])
      | none => (s, [])
  | .disconnect =>
      match s.recognizeStream with
      | some id =>
          ({ s with recognizeStream := none, openChannels := s.openChannels.erase id },
           [.channelEnd id, .log "Client disconnected"])
      | none => (s, [.log "Client disconnected"])
  | .backendError msg =>
      (s, [.log "Streaming error", .emit "streaming-error" msg])

/-- Fold a sequence of events through the engine, keeping the state. -/
def runS (env : Env) : SessionState → List Event → SessionState
  | s, [] => s
  | s, e :: rest => runS env (step env s e).1 rest

/-- An environment with credentials configured. -/
def credsEnv : Env :=
  { googleApplicationCredentials := true, googleCloudApiKey := false }

/-- An environment with no credentials configured. -/
def noCredsEnv : Env :=
  { googleApplicationCredentials := false, googleCloudApiKey := false }

/-- Is this output a `streaming-started` emit? -/
def isStartedEmit : Output → Bool
  | .emit ev _ => ev == "streaming-started"
  | _ => false

/-- Is this output a `streaming-stopped` emit? -/
def isStoppedEmit : Output → Bool
  | .emit ev _ => ev == "streaming-stopped"
  | _ => false

/-- Is this output a `streaming-error` emit? -/
def isErrorEmit : Output → Bool
  | .emit ev _ => ev == "streaming-error"
  | _ => false

/-- Is this output any socket emit? -/
def isEmitOut : Output → Bool
  | .emit _ _ => true
  | _ => false

/-- Is this output an operation on a backend channel? -/
def isChannelOp : Output → Bool
  | .channelOpen _ _ _ _ => true
  | .channelWrite _ _ => true
  | .channelEnd _ => true
  | _ => false

/-- Is this output the opening of a backend channel? -/
def isChannelOpenOut : Output → Bool
  | .channelOpen _ _ _ _ => true
  | _ => false

/-- Is this output a write to a backend channel? -/
def isChannelWriteOut : Output → Bool
  | .channelWrite _ _ => true
  | _ => false

/-- Is this output a console log? -/
def isLogOut : Output → Bool
  | .log _ => true
  | _ => false

/-- Does the output list open a channel configured with the given model? -/
def opensModel (outs : List Output) (model : String) : Bool :=
  outs.any fun o =>
    match o with
    | .channelOpen _ m _ _ => m == model
    | _ => false

/-- A trace in which every `start-streaming` request arrives while no
recognition stream is tracked by the session. -/
def startsOnlyWhenIdle (env : Env) : SessionState → List Event → Bool
  | _, [] => true
  | s, e :: rest =>
      (match e with
       | .startStreaming _ _ => s.recognizeStream.isNone
       | _ => true) && startsOnlyWhenIdle env (step env s e).1 rest

/-- On traces whose start requests only arrive while idle, the set of open
channels coincides with the channel tracked by `recognizeStream`. -/
theorem channels_match_handle (env : Env) :
    ∀ (events : List Event) (s : SessionState),
      s.openChannels = s.recognizeStream.toList →
      startsOnlyWhenIdle env s events = true →
      (runS env s events).openChannels = (runS env s events).recognizeStream.toList := by
  intro events
  induction events with
  | nil => intro s hinv _; exact hinv
  | cons e rest ih =>
      intro s hinv h
      rw [runS]
      cases e with
      | startStreaming lang sr =>
          simp only [startsOnlyWhenIdle, Bool.and_eq_true, Option.isNone_iff_eq_none] at h
          obtain ⟨h1, h2⟩ := h
          refine ih _ ?_ h2
          by_cases hc : env.credentialsConfigured
          · rw [h1] at hinv
            simp [step, hc, h1, hinv]
          · simp only [Bool.not_eq_true] at hc
            simp [step, hc, hinv]
      | audioChunk c =>
          simp only [startsOnlyWhenIdle, Bool.true_and] at h
          refine ih _ ?_ h
          cases hrs : s.recognizeStream <;> simp [step, hrs, hinv]
      | stopStreaming =>
          simp only [startsOnlyWhenIdle, Bool.true_and] at h
          refine ih _ ?_ h
          cases hrs : s.recognizeStream with
          | none => simp [step, hrs, hinv]
          | some id =>
              rw [hrs] at hinv
              simp [step, hrs, hinv]
      | disconnect =>
          simp only [startsOnlyWhenIdle, Bool.true_and] at h
          refine ih _ ?_ h
          cases hrs : s.recognizeStream with
          | none => simp [step, hrs, hinv]
          | some id =>
              rw [hrs] at hinv
              simp [step, hrs, hinv]
      | backendError msg =>
          simp only [startsOnlyWhenIdle, Bool.true_and] at h
          refine ih _ ?_ h
          simpa [step] using hinv

/-- Claim C1, counterexample: a second `start-streaming` while a channel
is already open leaves the session with two open backend channels, because
the handler overwrites `recognizeStream` without ending the old stream. -/
theorem double_start_two_open_channels :
    ¬ ((runS credsEnv initialState
        [.startStreaming none none, .startStreaming none none]).openChannels.length ≤ 1) := by
  decide

/-- Claim C1, amended: provided every `start-streaming` request arrives
while no stream is tracked, every reachable state of the session has at
most one open backend channel.  Without that proviso the invariant fails:
a second start while streaming opens a second channel and leaks the first. -/
theorem startsIdle_at_most_one_channel (env : Env) (events : List Event)
    (h : startsOnlyWhenIdle env initialState events = true) :
    (runS env initialState events).openChannels.length ≤ 1 := by
  have hc := channels_match_handle env events initialState rfl h
  rw [hc]
  cases (runS env initialState events).recognizeStream <;> simp

/-- Witness for the amended claim C1 on a concrete five-event trace. -/
theorem startsIdle_at_most_one_channel_witness :
    startsOnlyWhenIdle credsEnv initialState
      [.startStreaming none none, .audioChunk [1], .stopStreaming,
       .startStreaming (some "ru-RU") none, .disconnect] = true ∧
    (runS credsEnv initialState
      [.startStreaming none none, .audioChunk [1], .stopStreaming,
       .startStreaming (some "ru-RU") none, .disconnect]).openChannels.length ≤ 1 :=
  ⟨by decide,
   startsIdle_at_most_one_channel credsEnv
     [.startStreaming none none, .audioChunk [1], .stopStreaming,
      .startStreaming (some "ru-RU") none, .disconnect] (by decide)⟩

/-- A concrete trace in which the backend errors while streaming. -/
def errTrace : List Event :=
  [.startStreaming none none, .backendError "stream failed"]

/-- Claim C2, counterexample: after a backend error the channel is not
released — the stream stays tracked and open — and a subsequent audio
chunk is still written to that channel, with no fresh start issued. -/
theorem backend_error_channel_not_released :
    (runS credsEnv initialState errTrace).recognizeStream ≠ none ∧
    (runS credsEnv initialState errTrace).openChannels ≠ [] ∧
    (step credsEnv (runS credsEnv initialState errTrace)
      (.audioChunk [1])).2.any isChannelWriteOut = true := by
  refine ⟨by decide, by decide, by decide⟩

/-- Claim C2, amended: a backend error makes the session emit exactly one
`streaming-error` event carrying the backend message and perform no
channel operation — in particular it opens no new channel, so there is no
automatic retry — but the session state is unchanged: the channel handle
is retained rather than released, so later chunks are still forwarded. -/
theorem backend_error_emits_once_keeps_state (env : Env) (s : SessionState) (msg : String) :
    (step env s (.backendError msg)).1 = s ∧
    (step env s (.backendError msg)).2.filter isErrorEmit = [.emit "streaming-error" msg] ∧
    (step env s (.backendError msg)).2.filter isChannelOp = [] := by
  refine ⟨rfl, ?_, ?_⟩ <;> simp [step, isErrorEmit, isChannelOp, List.filter]

/-- Claim C4, counterexample: an audio chunk arriving before streaming has
started is dropped without any log output, contradicting the stated
drop-and-log policy; the handler body does nothing at all. -/
theorem dropped_chunk_not_logged :
    (step credsEnv initialState (.audioChunk [7])).2.any isLogOut = false := by
  decide

/-- Claim C4, amended: an audio chunk arriving while no recognition stream
is tracked is dropped silently: it is not written to any backend channel,
not buffered (the state is unchanged), and not logged. -/
theorem chunk_without_stream_dropped_silently (env : Env) (s : SessionState) (chunk : Chunk)
    (h : s.recognizeStream = none) :
    step env s (.audioChunk chunk) = (s, []) := by
  simp [step, h]

/-- Witness for the amended claim C4 at the initial session state. -/
theorem chunk_without_stream_dropped_silently_witness :
    initialState.recognizeStream = none ∧
    step credsEnv initialState (.audioChunk [7]) = (initialState, []) :=
  ⟨rfl, chunk_without_stream_dropped_silently credsEnv initialState [7] rfl⟩

/-- Claim C5: a `start-streaming` request with no backend credentials
configured emits exactly one configuration error event, opens no channel,
and leaves the session state unchanged; a later `start-streaming` from
that same state with credentials configured succeeds, emitting
`streaming-started` and opening a channel. -/
theorem start_without_credentials (env envRetry : Env) (s : SessionState)
    (lang : Option String) (sr : Option Nat)
    (h : env.credentialsConfigured = false)
    (hr : envRetry.credentialsConfigured = true) :
    step env s (.startStreaming lang sr) = (s, [.emit "streaming-error" credentialsErrorMsg]) ∧
    (step envRetry s (.startStreaming lang sr)).2.any isStartedEmit = true ∧
    (step envRetry s (.startStreaming lang sr)).2.any isChannelOpenOut = true := by
  refine ⟨by simp [step, h], ?_, ?_⟩ <;>
    simp [step, hr, isStartedEmit, isChannelOpenOut]

/-- Witness for claim C5 at the initial state with concrete environments. -/
theorem start_without_credentials_witness :
    noCredsEnv.credentialsConfigured = false ∧
    credsEnv.credentialsConfigured = true ∧
    (step noCredsEnv initialState (.startStreaming (some "en-US") none)
        = (initialState, [.emit "streaming-error" credentialsErrorMsg]) ∧
      (step credsEnv initialState (.startStreaming (some "en-US") none)).2.any isStartedEmit = true ∧
      (step credsEnv initialState (.startStreaming (some "en-US") none)).2.any isChannelOpenOut = true) :=
  ⟨by decide, by decide,
   start_without_credentials noCredsEnv credsEnv initialState (some "en-US") none
     (by decide) (by decide)⟩

/-- Claim C6: a session with an open stream that receives
`stop-streaming` ends the channel, emits exactly one `streaming-stopped`
event and releases the handle; a `disconnect` arriving afterwards changes
nothing and produces neither a channel operation nor a socket event. -/
theorem stop_then_disconnect_idempotent (env : Env) (s : SessionState) (id : Nat)
    (h : s.recognizeStream = some id) :
    ((step env s .stopStreaming).2.filter isStoppedEmit).length = 1 ∧
    Output.channelEnd id ∈ (step env s .stopStreaming).2 ∧
    (step env s .stopStreaming).1.recognizeStream = none ∧
    (step env (step env s .stopStreaming).1 .disconnect).1 = (step env s .stopStreaming).1 ∧
    (step env (step env s .stopStreaming).1 .disconnect).2.any
      (fun o => isChannelOp o || isEmitOut o) = false := by
  refine ⟨?_, ?_, ?_, ?_, ?_⟩ <;>
    simp [step, h, isStoppedEmit, isChannelOp, isEmitOut, List.filter]

/-- Witness for claim C6 from the state reached by one successful start. -/
theorem stop_then_disconnect_idempotent_witness :
    ((step credsEnv (runS credsEnv initialState [.startStreaming none none]) .stopStreaming).2.filter
        isStoppedEmit).length = 1 ∧
    Output.channelEnd 0 ∈
      (step credsEnv (runS credsEnv initialState [.startStreaming none none]) .stopStreaming).2 ∧
    (step credsEnv (runS credsEnv initialState [.startStreaming none none])
        .stopStreaming).1.recognizeStream = none ∧
    (step credsEnv
        (step credsEnv (runS credsEnv initialState [.startStreaming none none]) .stopStreaming).1
        .disconnect).1 =
      (step credsEnv (runS credsEnv initialState [.startStreaming none none]) .stopStreaming).1 ∧
    (step credsEnv
        (step credsEnv (runS credsEnv initialState [.startStreaming none none]) .stopStreaming).1
        .disconnect).2.any (fun o => isChannelOp o || isEmitOut o) = false :=
  stop_then_disconnect_idempotent credsEnv
    (runS credsEnv initialState [.startStreaming none none]) 0 (by decide)

/-- Claim C9, counterexample: a `start-streaming` request with an absent
language tag opens the channel with the enhanced dictation model, not a
general-purpose model, because the absent tag defaults to `en-US`, which
matches the `en-` prefix test. -/
theorem absent_language_selects_dictation :
    opensModel (step credsEnv initialState (.startStreaming none none)).2
      "command_and_search" = false ∧
    opensModel (step credsEnv initialState (.startStreaming none none)).2
      "medical_dictation" = true := by
  refine ⟨by decide, by decide⟩

/-- A language tag of the shape `en-` followed by anything is nonempty. -/
theorem en_append_ne_empty (rest : String) : ("en-" ++ rest) ≠ "" := by
  intro hcon
  have hd : ("en-" ++ rest).data = "".data := congrArg String.data hcon
  rw [String.data_append] at hd
  simp at hd

/-- A language tag of the shape `en-` followed by anything passes the
JavaScript prefix test for `en-`. -/
theorem en_append_startsWith (rest : String) : jsStartsWith ("en-" ++ rest) "en-" = true := by
  rw [jsStartsWith, String.data_append]
  rw [List.isPrefixOf_iff_prefix]
  exact List.prefix_append _ _

/-- Claim C9, amended: the model variant is keyed by the literal `en-`
language-tag prefix after defaulting an absent (or empty) tag to `en-US`:
an absent tag or any tag of the form `en-<region>` selects the enhanced
dictation model, while any nonempty tag not starting with `en-` selects
the general-purpose model. -/
theorem model_selected_by_en_tag (env : Env) (s : SessionState)
    (lang : Option String) (sr : Option Nat)
    (h : env.credentialsConfigured = true) :
    ((lang = none ∨ ∃ rest, lang = some ("en-" ++ rest)) →
      opensModel (step env s (.startStreaming lang sr)).2 "medical_dictation" = true) ∧
    (∀ l, lang = some l → l ≠ "" → jsStartsWith l "en-" = false →
      opensModel (step env s (.startStreaming lang sr)).2 "command_and_search" = true) := by
  constructor
  · rintro (rfl | ⟨rest, rfl⟩)
    · simp [step, h, opensModel, languageCodeOf, modelFor, useMedicalModel, jsStartsWith]
    · have hne := en_append_ne_empty rest
      have hsw := en_append_startsWith rest
      simp [step, h, opensModel, languageCodeOf, modelFor, useMedicalModel, hne, hsw,
        String.isEmpty_iff]
  · intro l hl hne hsw
    subst hl
    simp [step, h, opensModel, languageCodeOf, modelFor, useMedicalModel, hne, hsw,
      String.isEmpty_iff]

/-- Witness for the amended claim C9: the dictation model for an `en-GB`
tag and the general-purpose model for a `ru-RU` tag. -/
theorem model_selected_by_en_tag_witness :
    opensModel (step credsEnv initialState
      (.startStreaming (some ("en-" ++ "GB")) none)).2 "medical_dictation" = true ∧
    opensModel (step credsEnv initialState
      (.startStreaming (some "ru-RU") none)).2 "command_and_search" = true :=
  ⟨(model_selected_by_en_tag credsEnv initialState (some ("en-" ++ "GB")) none
      (by decide)).1 (Or.inr ⟨"GB", rfl⟩),
   (model_selected_by_en_tag credsEnv initialState (some "ru-RU") none
      (by decide)).2 "ru-RU" rfl (by decide) (by decide)⟩

/-!
Part 2: the medical transcription enhancement service.

Text is modelled as `List Char`.  JavaScript semantics embedded here:
`toLowerCase` is mapped characterwise over the Latin, Cyrillic and
Armenian letters that occur in the constant tables; regular-expression
word boundaries use the ASCII word-character class (patterns are compiled
without the unicode flag, so Cyrillic and Armenian letters are not word
characters); string `.length` agrees with the character count because
every character in the tables is in the basic multilingual plane.
-/

/-- A text as a list of characters. -/
abbrev Chars := List Char

/-- Characterwise `toLowerCase` covering ASCII `A`..`Z`, the Cyrillic
capitals `U+0401` and `U+0410`..`U+042F`, and the Armenian capitals
`U+0531`..`U+0556`; every other character is fixed. -/
def jsToLower (c : Char) : Char :=
  if 65 ≤ c.toNat && c.toNat ≤ 90 then Char.ofNat (c.toNat + 32)
  else if c.toNat == 0x401 then Char.ofNat 0x451
  else if 0x410 ≤ c.toNat && c.toNat ≤ 0x42F then Char.ofNat (c.toNat + 0x20)
  else if 0x531 ≤ c.toNat && c.toNat ≤ 0x556 then Char.ofNat (c.toNat + 0x30)
  else c

/-- Lowercase an entire text. -/
def lowerChars (s : Chars) : Chars := s.map jsToLower

/-- The ASCII word-character class of JavaScript regular expressions. -/
def isWordChar (c : Char) : Bool :=
  (97 ≤ c.toNat && c.toNat ≤ 122) || (65 ≤ c.toNat && c.toNat ≤ 90) ||
    (48 ≤ c.toNat && c.toNat ≤ 57) || c == '_'

/-- Word-character test at a text position that may be out of range;
positions outside the string count as non-word. -/
def wordB : Option Char → Bool
  | none => false
  | some c => isWordChar c

/-- Does `needle` occur as a contiguous substring of `hay`?  This is
JavaScript `String.prototype.includes`. -/
def hasSubstring : Chars → Chars → Bool
  | [], needle => needle.isEmpty
  | c :: t, needle => needle.isPrefixOf (c :: t) || hasSubstring t needle

/-- JavaScript string replace with a plain string pattern of one space
and an empty replacement: remove only the first space. -/
def removeFirstSpace : Chars → Chars
  | [] => []
  | c :: t => if c == ' ' then t else c :: removeFirstSpace t

/-- The medical terminology mapping, in source order. -/
def MEDICAL_TERMS : List (String × String) := [
  ("left ventricle", "LV"),
  ("right ventricle", "RV"),
  ("left atrium", "LA"),
  ("right atrium", "RA"),
  ("ejection fraction", "EF"),
  ("mitral valve", "MV"),
  ("aortic valve", "AV"),
  ("tricuspid valve", "TV"),
  ("pulmonary valve", "PV"),
  ("левый желудочек", "left ventricle (LV)"),
  ("правый желудочек", "right ventricle (RV)"),
  ("левое предсердие", "left atrium (LA)"),
  ("правое предсердие", "right atrium (RA)"),
  ("митральный клапан", "mitral valve (MV)"),
  ("аортальный клапан", "aortic valve (AV)"),
  ("трикуспидальный клапан", "tricuspid valve (TV)"),
  ("фракция выброса", "ejection fraction (EF)"),
  ("ձախ փորոք", "left ventricle (LV)"),
  ("աջ փորոք", "right ventricle (RV)"),
  ("ձախ ականջնակ", "left atrium (LA)"),
  ("աջ ականջնակ", "right atrium (RA)"),
  ("միտրալ փական", "mitral valve (MV)"),
  ("աորտալ փական", "aortic valve (AV)")]

/-- Stable insertion into a list sorted by descending key length: the new
entry goes before the first entry whose key is not longer.  This mirrors
the stable JavaScript `sort(([a], [b]) => b.length - a.length)`. -/
def insertByLen (x : String × String) : List (String × String) → List (String × String)
  | [] => [x]
  | y :: ys => if y.1.length ≤ x.1.length then x :: y :: ys else y :: insertByLen x ys

/-- Stable sort by descending key length. -/
def sortTermsDesc : List (String × String) → List (String × String)
  | [] => []
  | x :: xs => insertByLen x (sortTermsDesc xs)

/-- Does the (already lowercased) `term` match at the head of `s`, with
JavaScript word boundaries before and after the matched region?
`prev` is the character immediately before this position. -/
def matchesHere (term : Chars) (prev : Option Char) (s : Chars) : Bool :=
  term.isPrefixOf (lowerChars s) &&
    (wordB prev != wordB s.head?) &&
    (wordB (s.take term.length).getLast? != wordB (s.drop term.length).head?)

/-- Global word-bounded case-insensitive replacement, scanning left to
right and resuming after the end of each match, as the `gi` regular
expression built from a term does.  `fuel` bounds the recursion and is
always at least the length of `s` plus one when called below. -/
def replaceTermAux (fuel : Nat) (term std : Chars) (prev : Option Char) (s : Chars) : Chars :=
  match fuel, s with
  | 0, s => s
  | _ + 1, [] => []
  | f + 1, c :: rest =>
      if !term.isEmpty && matchesHere term prev (c :: rest) then
        std ++ replaceTermAux f term std ((c :: rest).take term.length).getLast?
          ((c :: rest).drop term.length)
      else
        c :: replaceTermAux f term std (some c) rest

/-- Replace every word-bounded occurrence of `term` in `s` by `std`. -/
def replaceTerm (term std : Chars) (s : Chars) : Chars :=
  replaceTermAux (s.length + 1) term std none s

/-- One pass of the standardizer fold: replace one dictionary term. -/
def applyTerm (acc : Chars) (ts : String × String) : Chars :=
  replaceTerm (lowerChars ts.1.data) ts.2.data acc

/-- The standardizer `standardizeTerms`: replace the dictionary terms,
longest first. -/
def standardizeTerms (transcript : String) : String :=
  String.mk ((sortTermsDesc MEDICAL_TERMS).foldl applyTerm transcript.data)

/-- The template sections for each procedure type, in source order. -/
def PROCEDURE_SECTIONS : List (String × List String) := [
  ("echocardiogram",
    ["Left Ventricle", "Right Ventricle", "Left Atrium", "Right Atrium",
     "Mitral Valve", "Aortic Valve", "Tricuspid Valve", "Pulmonary Valve",
     "Pericardium", "Overall Assessment"]),
  ("obstetric-ultrasound",
    ["Fetal Biometry", "Amniotic Fluid", "Placenta", "Fetal Anatomy",
     "Doppler Studies", "Fetal Position"]),
  ("abdominal-ultrasound",
    ["Liver", "Gallbladder", "Kidneys", "Spleen", "Pancreas", "Aorta"])]

/-- The loop of `classifySection`: return the first section whose
lowercase form, or that form with its first space removed, occurs in the
lowercased text. -/
def firstMatching (lowerText : Chars) : List String → Option String
  | [] => none
  | sec :: rest =>
      if hasSubstring lowerText (lowerChars sec.data) ||
          hasSubstring lowerText (removeFirstSpace (lowerChars sec.data)) then some sec
      else firstMatching lowerText rest

/-- The classifier `classifySection`: look up the section list of the procedure type,
try each configured section in order, then fall back to a fixed set of
Russian and Armenian substring checks. -/
def classifySection (text : String) (procedureType : String) : Option String :=
  match PROCEDURE_SECTIONS.lookup procedureType with
  | none => none
  | some sections =>
      let lowerText := lowerChars text.data
      match firstMatching lowerText sections with
      | some sec => some sec
      | none =>
          if hasSubstring lowerText ("левый желудочек").data ||
              hasSubstring lowerText ("ձախ փորոք").data then some "Left Ventricle"
          else if hasSubstring lowerText ("правый желудочек").data ||
              hasSubstring lowerText ("աջ փորոք").data then some "Right Ventricle"
          else if hasSubstring lowerText ("митральный").data ||
              hasSubstring lowerText ("միտրալ").data then some "Mitral Valve"
          else none

/-- Decimal digit test, the `\d` class. -/
def isDigit (c : Char) : Bool := 48 ≤ c.toNat && c.toNat ≤ 57

/-- The `[\s:]` class as used between a measurement label and its value:
whitespace or a colon. -/
def isSpaceColon (c : Char) : Bool :=
  c == ' ' || c == '\t' || c == '\n' || c == '\r' ||
    c.toNat == 11 || c.toNat == 12 || c == ':'

/-- Tail of the integer measurement patterns after the label:
`[\s:]*(\d+)` followed by an optional suffix that can never fail.
Returns the captured digit group.  The greedy `[\s:]*` needs no
backtracking because the digit class is disjoint from it. -/
def matchIntTail (s : Chars) : Option Chars :=
  let rest := s.dropWhile isSpaceColon
  let ds := rest.takeWhile isDigit
  if ds.isEmpty then none else some ds

/-- Tail of the decimal measurement pattern after the label:
`[\s:]*(\d+\.?\d*)` followed by an optional unit.  Returns the captured
group: digits, then an optional dot with further digits. -/
def matchDecTail (s : Chars) : Option Chars :=
  let rest := s.dropWhile isSpaceColon
  let ds := rest.takeWhile isDigit
  if ds.isEmpty then none
  else
    match rest.drop ds.length with
    | '.' :: a2 => some (ds ++ '.' :: a2.takeWhile isDigit)
    | _ => some ds

/-- Try the label alternatives in pattern order at the current position;
when a label matches, its tail must also match, otherwise the next
alternative is tried at the same position. -/
def tryAlts (alts : List Chars) (tail : Chars → Option Chars) (s : Chars) : Option Chars :=
  match alts with
  | [] => none
  | a :: more =>
      if a.isPrefixOf (lowerChars s) then
        match tail (s.drop a.length) with
        | some g => some g
        | none => tryAlts more tail s
      else tryAlts more tail s

/-- Leftmost match: scan positions left to right and return the group of
the first position where the pattern matches, as `String.match` does. -/
def scanMatch (alts : List Chars) (tail : Chars → Option Chars) : Chars → Option Chars
  | [] => none
  | c :: rest =>
      match tryAlts alts tail (c :: rest) with
      | some g => some g
      | none => scanMatch alts tail rest

/-- Label alternatives of the ejection-fraction pattern, lowercased. -/
def efAlts : List Chars :=
  (["ejection fraction", "EF", "ФВ", "фракция выброса"]).map fun t => lowerChars t.data

/-- Label alternatives of the biparietal-diameter pattern, lowercased. -/
def bpdAlts : List Chars :=
  (["BPD", "biparietal diameter", "БПР"]).map fun t => lowerChars t.data

/-- Label alternatives of the gestational-age pattern, lowercased. -/
def gaAlts : List Chars :=
  (["gestational age", "GA", "срок беременности"]).map fun t => lowerChars t.data

/-- Label alternatives of the heart-rate pattern, lowercased. -/
def hrAlts : List Chars :=
  (["heart rate", "HR", "ЧСС"]).map fun t => lowerChars t.data

/-- JavaScript `parseInt` on a captured digit group. -/
def parseNatDigits (g : Chars) : Nat :=
  g.foldl (fun acc c => 10 * acc + (c.toNat - 48)) 0

/-- The digits after the optional dot of a captured decimal group. -/
def fracPart (g : Chars) : Chars :=
  match g.drop (g.takeWhile isDigit).length with
  | '.' :: f => f.takeWhile isDigit
  | _ => []

/-- JavaScript `parseFloat` on a captured group of the form digits,
optional dot, digits, as an exact rational. -/
def parseFloatChars (g : Chars) : Rat :=
  (parseNatDigits (g.takeWhile isDigit) : Rat) +
    (parseNatDigits (fracPart g) : Rat) / ((10 : Rat) ^ (fracPart g).length)

/-- The measurement map: one optional entry per measurement type. -/
structure MeasurementResult where
  ejection_fraction : Option Nat
  biparietal_diameter : Option Rat
  gestational_age : Option Nat
  heart_rate : Option Nat
  deriving DecidableEq, Repr

/-- The extractor `extractMeasurements`: run the four labeled patterns over the
transcript, taking the first match of each, integers via `parseInt` and
the decimal-admitting diameter via `parseFloat`. -/
def extractMeasurements (transcript : String) : MeasurementResult :=
  let s := transcript.data
  { ejection_fraction := (scanMatch efAlts matchIntTail s).map parseNatDigits,
    biparietal_diameter := (scanMatch bpdAlts matchDecTail s).map parseFloatChars,
    gestational_age := (scanMatch gaAlts matchIntTail s).map parseNatDigits,
    heart_rate := (scanMatch hrAlts matchIntTail s).map parseNatDigits }

/-- Alternatives of the normal-findings pattern, lowercased. -/
def normalAlts : List Chars :=
  (["normal", "unremarkable", "within normal limits", "нормальн", "в норме"]).map
    fun t => lowerChars t.data

/-- Alternatives of the abnormal-findings pattern, lowercased. -/
def abnormalAlts : List Chars :=
  (["abnormal", "concerning", "dilated", "enlarged", "thickened",
    "патолог", "расширен", "увеличен"]).map fun t => lowerChars t.data

/-- Alternatives of the no-evidence pattern, lowercased. -/
def noEvidenceAlts : List Chars :=
  (["no evidence of", "absence of", "negative for", "не выявлено", "отсутств"]).map
    fun t => lowerChars t.data

/-- A case-insensitive alternation of literals tested against a text:
true when any alternative occurs as a substring. -/
def testPattern (alts : List Chars) (s : Chars) : Bool :=
  alts.any fun a => hasSubstring s a

/-- The findings record returned by `detectFindings`. -/
structure Findings where
  normal : Bool
  abnormal : Bool
  noEvidence : Bool
  findings : List String
  deriving DecidableEq, Repr

/-- The detector `detectFindings`: three independent pattern tests plus the fixed
human-readable findings list in the order normal, abnormal, no-evidence. -/
def detectFindings (transcript : String) : Findings :=
  let s := lowerChars transcript.data
  let normal := testPattern normalAlts s
  let abnormal := testPattern abnormalAlts s
  let noEvidence := testPattern noEvidenceAlts s
  { normal := normal, abnormal := abnormal, noEvidence := noEvidence,
    findings :=
      (if normal then ["Normal findings"] else []) ++
      (if abnormal then ["Abnormal findings detected"] else []) ++
      (if noEvidence then ["No significant pathology"] else []) }

/-- A label returned by the section loop is a member of the candidate list. -/
theorem firstMatching_mem (lowerText : Chars) :
    ∀ (l : List String) (sec : String), firstMatching lowerText l = some sec → sec ∈ l := by
  intro l
  induction l with
  | nil => intro sec h; exact absurd h (by simp [firstMatching])
  | cons x xs ih =>
      intro sec h
      rw [firstMatching] at h
      split at h
      · cases h; exact List.mem_cons_self x xs
      · exact List.mem_cons_of_mem x (ih sec h)

/-- Claim C3, counterexample: on the Russian phrase for left ventricle
with procedure type `obstetric-ultrasound`, the multilingual fallback
returns the label `Left Ventricle`, which is not in the configured
section list of that procedure. -/
theorem fallback_label_outside_procedure_list :
    classifySection "левый желудочек" "obstetric-ultrasound" = some "Left Ventricle" ∧
    "Left Ventricle" ∉ (PROCEDURE_SECTIONS.lookup "obstetric-ultrasound").getD [] := by
  refine ⟨by decide, by decide⟩

/-- Claim C3, amended: for every input text and procedure type,
`classifySection` returns either no label, or a label from the configured
section list of that procedure, or one of the three fixed multilingual
fallback labels `Left Ventricle`, `Right Ventricle`, `Mitral Valve` —
the fallback labels may fall outside the configured list of the
procedure actually asked about. -/
theorem classifySection_label_in_table_or_fallback (text procedureType label : String)
    (h : classifySection text procedureType = some label) :
    (∃ secs, PROCEDURE_SECTIONS.lookup procedureType = some secs ∧ label ∈ secs) ∨
    label ∈ ["Left Ventricle", "Right Ventricle", "Mitral Valve"] := by
  unfold classifySection at h
  cases hl : PROCEDURE_SECTIONS.lookup procedureType with
  | none => rw [hl] at h; exact absurd h (by simp)
  | some secs =>
      rw [hl] at h
      simp only at h
      cases hf : firstMatching (lowerChars text.data) secs with
      | some sec =>
          rw [hf] at h
          cases h
          exact Or.inl ⟨secs, rfl, firstMatching_mem _ secs label hf⟩
      | none =>
          rw [hf] at h
          right
          split_ifs at h <;> (cases h; simp)

/-- Witness for the amended claim C3 on a transcript mentioning the
mitral valve during an echocardiogram. -/
theorem classifySection_label_witness :
    (∃ secs, PROCEDURE_SECTIONS.lookup "echocardiogram" = some secs ∧ "Mitral Valve" ∈ secs) ∨
    "Mitral Valve" ∈ ["Left Ventricle", "Right Ventricle", "Mitral Valve"] :=
  classifySection_label_in_table_or_fallback "mitral valve regurgitation" "echocardiogram"
    "Mitral Valve" (by decide)

/-- Claim C7: on the example transcript the extractor returns exactly the
four claimed measurements, whole numbers for the integer patterns and the
exact rational seventeen halves for the decimal diameter, each from the
first match of its pattern. -/
theorem extractMeasurements_example :
    extractMeasurements "EF 55%, BPD 8.5 cm, GA 32 weeks, HR 140 bpm" =
      { ejection_fraction := some 55,
        biparietal_diameter := some ((17 : Rat) / 2),
        gestational_age := some 32,
        heart_rate := some 140 } := by
  have hEF : scanMatch efAlts matchIntTail
      ("EF 55%, BPD 8.5 cm, GA 32 weeks, HR 140 bpm").data = some ['5', '5'] := by decide
  have hBPD : scanMatch bpdAlts matchDecTail
      ("EF 55%, BPD 8.5 cm, GA 32 weeks, HR 140 bpm").data = some ['8', '.', '5'] := by decide
  have hGA : scanMatch gaAlts matchIntTail
      ("EF 55%, BPD 8.5 cm, GA 32 weeks, HR 140 bpm").data = some ['3', '2'] := by decide
  have hHR : scanMatch hrAlts matchIntTail
      ("EF 55%, BPD 8.5 cm, GA 32 weeks, HR 140 bpm").data = some ['1', '4', '0'] := by decide
  have hp : parseFloatChars ['8', '.', '5'] = (17 : Rat) / 2 := by
    rw [parseFloatChars]
    rw [show List.takeWhile isDigit ['8', '.', '5'] = ['8'] from by decide]
    rw [show fracPart ['8', '.', '5'] = ['5'] from by decide]
    rw [show parseNatDigits ['8'] = 8 from by decide]
    rw [show parseNatDigits ['5'] = 5 from by decide]
    norm_num
  rw [extractMeasurements]
  rw [hEF, hBPD, hGA, hHR]
  simp only [Option.map_some']
  rw [hp]
  rw [show parseNatDigits ['5', '5'] = 55 from by decide]
  rw [show parseNatDigits ['3', '2'] = 32 from by decide]
  rw [show parseNatDigits ['1', '4', '0'] = 140 from by decide]

/-- Substring containment coincides with the infix relation on texts. -/
theorem hasSubstring_spec (needle : Chars) :
    ∀ hay : Chars, hasSubstring hay needle = true ↔ needle <:+: hay := by
  intro hay
  induction hay with
  | nil => simp [hasSubstring, List.isEmpty_iff]
  | cons c t ih =>
      rw [hasSubstring, Bool.or_eq_true, List.isPrefixOf_iff_prefix, ih,
        List.infix_cons_iff]

/-- Claim C10: a transcript containing the substring `abnormal` in any
letter case sets both the abnormal flag and the normal flag, because the
letters `normal` occur inside `abnormal`; the finding flags are not
substring tests over disjoint vocabularies. -/
theorem abnormal_sets_normal_flag (transcript : String)
    (h : hasSubstring (lowerChars transcript.data) ("abnormal").data = true) :
    (detectFindings transcript).abnormal = true ∧
    (detectFindings transcript).normal = true := by
  constructor
  · simp only [detectFindings, testPattern, List.any_eq_true]
    exact ⟨("abnormal").data, by decide, h⟩
  · simp only [detectFindings, testPattern, List.any_eq_true]
    refine ⟨("normal").data, by decide, ?_⟩
    rw [hasSubstring_spec] at h ⊢
    exact List.IsInfix.trans ((hasSubstring_spec _ _).mp (by decide)) h

/-- Witness for claim C10 on a concrete transcript with `Abnormal` in
capitalised form. -/
theorem abnormal_sets_normal_flag_witness :
    (detectFindings "Abnormal findings with dilated left ventricle").abnormal = true ∧
    (detectFindings "Abnormal findings with dilated left ventricle").normal = true :=
  abnormal_sets_normal_flag "Abnormal findings with dilated left ventricle" (by decide)

/-!
For the idempotence of the standardizer on canonical text the key
observation is a length argument: every dictionary term contains three
consecutive non-space characters, while a text assembled from two-letter
canonical abbreviations separated by spaces never does, so no term can
match anywhere in such a text.
-/

/-- Does the text contain three consecutive non-space characters? -/
def hasRun3 : Chars → Bool
  | a :: b :: c :: rest =>
      (!(a == ' ') && !(b == ' ') && !(c == ' ')) || hasRun3 (b :: c :: rest)
  | _ => false

/-- A leading space never contributes to a run of three. -/
theorem hasRun3_space_cons (u : Chars) : hasRun3 (' ' :: u) = hasRun3 u := by
  match u with
  | [] => rfl
  | [v] => rfl
  | v :: w :: r => simp [hasRun3]

/-- A space in second position never contributes to a run of three. -/
theorem hasRun3_cons_space (c : Char) (u : Chars) :
    hasRun3 (c :: ' ' :: u) = hasRun3 u := by
  match u with
  | [] => rfl
  | v :: r => simp [hasRun3, hasRun3_space_cons]

/-- Two characters followed by a space: any run of three must live
entirely in the remainder. -/
theorem hasRun3_two_cons_space (c1 c2 : Char) (u : Chars) :
    hasRun3 (c1 :: c2 :: ' ' :: u) = hasRun3 u := by
  simp [hasRun3, hasRun3_cons_space]

/-- Run-freeness passes to the tail. -/
theorem hasRun3_tail (c : Char) (t : Chars) (h : hasRun3 (c :: t) = false) :
    hasRun3 t = false := by
  match t with
  | [] => rfl
  | [v] => rfl
  | v :: w :: r =>
      rw [hasRun3, Bool.or_eq_false_iff] at h
      exact h.2

/-- A run of three in a text survives appending more text. -/
theorem hasRun3_append_left (b : Chars) :
    ∀ a : Chars, hasRun3 a = true → hasRun3 (a ++ b) = true := by
  intro a
  induction a with
  | nil => intro h; exact absurd h (by simp [hasRun3])
  | cons x xs ih =>
      intro h
      rcases xs with _ | ⟨y, _ | ⟨z, r⟩⟩
      · exact absurd h (by simp [hasRun3])
      · exact absurd h (by simp [hasRun3])
      · rw [hasRun3, Bool.or_eq_true] at h
        simp only [List.cons_append]
        rw [hasRun3, Bool.or_eq_true]
        rcases h with h | h
        · exact Or.inl h
        · exact Or.inr (by simpa using ih h)

/-- Lowercasing fixes the space character. -/
theorem jsToLower_ne_space (c : Char) (h : (jsToLower c == ' ') = false) :
    (c == ' ') = false := by
  rcases hc : (c == ' ') with _ | _
  · rfl
  · exfalso
    have hceq : c = ' ' := eq_of_beq hc
    subst hceq
    rw [show jsToLower ' ' = ' ' from by decide] at h
    simp at h

/-- A run of three in the lowercased text reflects one in the original. -/
theorem hasRun3_of_lower :
    ∀ s : Chars, hasRun3 (lowerChars s) = true → hasRun3 s = true := by
  intro s
  induction s with
  | nil => intro h; exact absurd h (by simp [hasRun3, lowerChars])
  | cons x xs ih =>
      intro h
      rcases xs with _ | ⟨y, _ | ⟨z, r⟩⟩
      · exact absurd h (by simp [hasRun3, lowerChars])
      · exact absurd h (by simp [hasRun3, lowerChars])
      · rw [lowerChars, List.map_cons, List.map_cons, List.map_cons] at h
        rw [hasRun3, Bool.or_eq_true] at h
        rw [hasRun3, Bool.or_eq_true]
        rcases h with h | h
        · left
          simp only [Bool.and_eq_true, Bool.not_eq_true'] at h ⊢
          exact ⟨⟨jsToLower_ne_space x h.1.1, jsToLower_ne_space y h.1.2⟩,
            jsToLower_ne_space z h.2⟩
        · right
          exact ih (by simpa [lowerChars] using h)

/-- A run of three in a prefix reflects into the whole text. -/
theorem hasRun3_of_isPrefixOf (term u : Chars) (hterm : hasRun3 term = true)
    (hpre : term.isPrefixOf u = true) : hasRun3 u = true := by
  rw [List.isPrefixOf_iff_prefix] at hpre
  obtain ⟨t, rfl⟩ := hpre
  exact hasRun3_append_left t term hterm

/-- A term containing a run of three never matches inside a run-free text. -/
theorem matchesHere_eq_false (term : Chars) (prev : Option Char) (s : Chars)
    (hterm : hasRun3 term = true) (hs : hasRun3 s = false) :
    matchesHere term prev s = false := by
  rcases hpre : term.isPrefixOf (lowerChars s) with _ | _
  · rw [matchesHere, hpre]
    simp
  · have htrue : hasRun3 s = true :=
      hasRun3_of_lower s (hasRun3_of_isPrefixOf term (lowerChars s) hterm hpre)
    rw [htrue] at hs
    exact absurd hs (by simp)

/-- Replacement of a run-containing term leaves a run-free text unchanged. -/
theorem replaceTermAux_id (term std : Chars) (hterm : hasRun3 term = true) :
    ∀ (fuel : Nat) (prev : Option Char) (s : Chars), hasRun3 s = false →
      replaceTermAux fuel term std prev s = s := by
  intro fuel
  induction fuel with
  | zero => intro prev s _; rfl
  | succ f ih =>
      intro prev s hs
      rcases s with _ | ⟨c, rest⟩
      · rfl
      · rw [replaceTermAux, matchesHere_eq_false term prev (c :: rest) hterm hs]
        simp only [Bool.and_false, Bool.false_eq_true, if_false]
        rw [ih (some c) rest (hasRun3_tail c rest hs)]

/-- The whole standardizer fold leaves a run-free text unchanged, as long
as every dictionary key contains a run of three. -/
theorem foldl_applyTerm_id :
    ∀ (L : List (String × String)) (s : Chars),
      (∀ ts ∈ L, hasRun3 (lowerChars ts.1.data) = true) →
      hasRun3 s = false → L.foldl applyTerm s = s := by
  intro L
  induction L with
  | nil => intro s _ _; rfl
  | cons x xs ih =>
      intro s hall hs
      rw [List.foldl_cons]
      have hx : applyTerm s x = s := by
        rw [applyTerm, replaceTerm]
        exact replaceTermAux_id (lowerChars x.1.data) x.2.data (hall x (by simp))
          (s.length + 1) none s hs
      rw [hx]
      exact ih s (fun ts hts => hall ts (by simp [hts])) hs

/-- Every dictionary key, lowercased, contains a run of three consecutive
non-space characters (each key has a word of at least three letters). -/
theorem all_terms_hasRun3 :
    ∀ ts ∈ sortTermsDesc MEDICAL_TERMS, hasRun3 (lowerChars ts.1.data) = true := by
  decide

/-- The canonical abbreviations produced by the standardizer. -/
def canonicalAbbrevs : List String :=
  ["LV", "RV", "LA", "RA", "EF", "MV", "AV", "TV", "PV"]

/-- Join texts with single spaces. -/
def joinSpacesChars : List Chars → Chars
  | [] => []
  | [t] => t
  | t :: rest => t ++ ' ' :: joinSpacesChars rest

/-- Join tokens into a space-separated text. -/
def joinSpaces (toks : List String) : String :=
  String.mk (joinSpacesChars (toks.map String.data))

/-- Every canonical abbreviation is two characters long. -/
theorem canonical_len : ∀ t ∈ canonicalAbbrevs, t.data.length = 2 := by decide

/-- A space-separated join of two-character tokens is run-free. -/
theorem joinSpacesChars_no_run3 :
    ∀ l : List Chars, (∀ t ∈ l, t.length = 2) → hasRun3 (joinSpacesChars l) = false := by
  intro l
  induction l with
  | nil => intro _; rfl
  | cons t rest ih =>
      intro hall
      rcases rest with _ | ⟨u, rest2⟩
      · obtain ⟨c1, c2, rfl⟩ := List.length_eq_two.mp (hall t (by simp))
        rfl
      · obtain ⟨c1, c2, rfl⟩ := List.length_eq_two.mp (hall t (by simp))
        have hstep : joinSpacesChars ([c1, c2] :: u :: rest2) =
            c1 :: c2 :: ' ' :: joinSpacesChars (u :: rest2) := rfl
        rw [hstep, hasRun3_two_cons_space]
        exact ih fun x hx => hall x (by simp [hx])

/-- Claim C8: standardizing a text that consists only of canonical
abbreviations separated by spaces returns it unchanged — the standardizer
is idempotent with respect to canonical forms already present. -/
theorem standardizeTerms_id_on_canonical (toks : List String)
    (h : ∀ t ∈ toks, t ∈ canonicalAbbrevs) :
    standardizeTerms (joinSpaces toks) = joinSpaces toks := by
  have hrun : hasRun3 (joinSpaces toks).data = false := by
    show hasRun3 (joinSpacesChars (toks.map String.data)) = false
    refine joinSpacesChars_no_run3 _ ?_
    intro t ht
    rw [List.mem_map] at ht
    obtain ⟨x, hx, rfl⟩ := ht
    exact canonical_len x (h x hx)
  rw [standardizeTerms]
  rw [foldl_applyTerm_id (sortTermsDesc MEDICAL_TERMS) ((joinSpaces toks).data)
    all_terms_hasRun3 hrun]

/-- Witness for claim C8 on the canonical text `LV EF MV`. -/
theorem standardizeTerms_id_on_canonical_witness :
    standardizeTerms (joinSpaces ["LV", "EF", "MV"]) = joinSpaces ["LV", "EF", "MV"] :=
  standardizeTerms_id_on_canonical ["LV", "EF", "MV"] (by decide)

end Sono
